import Mathlib

/-!
Verification of the MNEE token-transaction engine and its Express wrapper.

The transport shell (controllers, middleware) is embedded directly from
`src/`.  The engine functions supplied by the `@mnee/ts-sdk` package
(`toAtomicAmount`, `fromAtomicAmount`, `getEnoughUtxos`, `validateMneeTx`,
`parseTxFromRawTx`) are not part of the repository's own sources; they are
modelled from the specification, and every definition that does so is
marked `Modelled from the spec:`.
-/

namespace Mnee

/-- A JavaScript number: NaN, ±Infinity, or a finite value (modelled as an
exact rational, since all comparisons and roundings the code performs are
exact at the magnitudes involved). -/
inductive JsNum where
  | nan
  | posInf
  | negInf
  | fin (q : ℚ)
deriving DecidableEq, Repr

/-- A JavaScript value as it can appear in a JSON request body. -/
inductive JsValue where
  | undefined
  | jnull
  | jbool (b : Bool)
  | jnum (n : JsNum)
  | jstr (s : String)
  | jarr (xs : List JsValue)
  | jobj (fields : List (String × JsValue))

/-- JavaScript truthiness (`!v` is the negation of this). -/
def JsValue.truthy : JsValue → Bool
  | .undefined => false
  | .jnull => false
  | .jbool b => b
  | .jnum n =>
    match n with
    | .nan => false
    | .fin q => decide (q ≠ 0)
    | _ => true
  | .jstr s => decide (s ≠ "")
  | .jarr _ => true
  | .jobj _ => true

/-- The test `typeof v === "object"` (true for null, arrays and plain objects). -/
def JsValue.typeofObject : JsValue → Bool
  | .jnull => true
  | .jarr _ => true
  | .jobj _ => true
  | _ => false

/-- The test `typeof v === "string"`. -/
def JsValue.typeofString : JsValue → Bool
  | .jstr _ => true
  | _ => false

/-- The test `typeof v === "number"` (NaN and the infinities are numbers). -/
def JsValue.typeofNumber : JsValue → Bool
  | .jnum _ => true
  | _ => false

/-- Property access `v.key`: field lookup on plain objects, `undefined`
on everything else (the code only reads ad-hoc fields). -/
def JsValue.getField (v : JsValue) (key : String) : JsValue :=
  match v with
  | .jobj fields =>
    match fields.find? (fun kv => kv.1 == key) with
    | some kv => kv.2
    | none => .undefined
  | _ => .undefined

/-- The JSON envelope every route answers with.  `data`, `message` and
`error` model the optional fields the handlers actually set. -/
structure Response where
  status : ℕ
  success : Bool
  data : Option JsValue
  message : Option String
  error : Option String

/-- A thrown JavaScript `Error` as seen by the express error middleware:
its `message` and the optional `statusCode` a controller attached. -/
structure JsError where
  message : String
  statusCode : Option ℕ
deriving DecidableEq, Repr

/-- Embeds `src/middleware/errorHandler.js`: answer with `err.statusCode || 500`
and `{ success: false, message: err.message || "Internal Server Error" }`. -/
def errorHandler (err : JsError) : Response :=
  { status := err.statusCode.getD 500
    success := false
    data := none
    message := some (if err.message = "" then "Internal Server Error" else err.message)
    error := none }

/-- The engine error taxonomy of spec §7 (the cases the claims exercise). -/
inductive MneeError where
  | invalidAmount
  | invalidInput (msg : String)
  | insufficientBalance (maxCoverable : ℕ)
  | invalidCosigner
deriving DecidableEq, Repr

/-- The `Error` object the SDK throws for each engine failure, as the
wrapper's `catch` blocks observe it (they match on `error.message`). -/
def MneeError.toJsError : MneeError → JsError
  | .invalidAmount => { message := "Invalid amount", statusCode := none }
  | .invalidInput msg => { message := msg, statusCode := none }
  | .insufficientBalance maxCoverable =>
      { message := "Insufficient MNEE balance. Max transfer amount: " ++ toString maxCoverable
        statusCode := none }
  | .invalidCosigner => { message := "Invalid cosigner detected", statusCode := none }

/-- One character of the class `[0-9a-fA-F]`. -/
def isHexChar (c : Char) : Bool :=
  (decide ('0' ≤ c) && decide (c ≤ '9')) ||
  (decide ('a' ≤ c) && decide (c ≤ 'f')) ||
  (decide ('A' ≤ c) && decide (c ≤ 'F'))

/-- The test `/^[0-9a-fA-F]+$/.test(s)`: non-empty and all-hex. -/
def matchesHexRegex (s : String) : Bool :=
  decide (s ≠ "") && s.data.all isHexChar

/-- Modelled from the spec (§6, engine boundary of the missing
`@mnee/ts-sdk` decoder): a hex string decodes only when it is non-empty,
all-hex and of even length; odd-length or non-hex strings are malformed. -/
def wellFormedHex (s : String) : Bool :=
  matchesHexRegex s && decide (s.length % 2 = 0)

/-- The protocol's decimal count (5 in the observed configuration). -/
def decimals : ℕ := 5

/-- The conversion factor `10^decimals`. -/
def atomicFactor : ℚ := 100000

/-- JavaScript `String.prototype.trim`: strip whitespace from both ends
(written over the character list so the kernel can evaluate it). -/
def jsTrim (s : String) : String :=
  String.mk (((s.data.dropWhile Char.isWhitespace).reverse.dropWhile Char.isWhitespace).reverse)

/-- Computes `Math.round(q * 10^decimals)` — nearest atomic unit, halves rounding
up — computed on the rational's numerator and denominator by integer
division, so that concrete inputs evaluate inside the kernel.
`toAtomicVal_eq_floor` identifies it with `⌊q * 10^decimals + 1/2⌋`. -/
def toAtomicVal (q : ℚ) : ℤ :=
  (2 * q.num * 100000 + (q.den : ℤ)).ediv (2 * (q.den : ℤ))

/-- Modelled from the spec (§4.1, missing `@mnee/ts-sdk`
`toAtomicAmount`): rounds a finite non-negative decimal amount to the
nearest atomic unit, and fails with `InvalidAmount` on any input that is
not a finite non-negative number. -/
def toAtomicAmount (amount : JsNum) : Except MneeError ℤ :=
  match amount with
  | .fin q => if 0 ≤ q then .ok (toAtomicVal q) else .error .invalidAmount
  | _ => .error .invalidAmount

/-- Modelled from the spec (§4.1, missing `@mnee/ts-sdk`
`fromAtomicAmount`): divides a non-negative integer atomic amount by the
factor, and fails with `InvalidAmount` on any input that is not a
non-negative integer. -/
def fromAtomicAmount (atomic : JsNum) : Except MneeError ℚ :=
  match atomic with
  | .fin q => if 0 ≤ q ∧ q.den = 1 then .ok (q / atomicFactor) else .error .invalidAmount
  | _ => .error .invalidAmount

/-- Spec-side predicate: a finite non-negative number (the domain on
which `toAtomic` must succeed). -/
def isFiniteNonNeg (n : JsNum) : Prop :=
  ∃ q : ℚ, n = .fin q ∧ 0 ≤ q

/-- Spec-side predicate: a non-negative integer (the domain on which
`fromAtomic` must succeed). -/
def isNonNegInt (n : JsNum) : Prop :=
  ∃ q : ℚ, n = .fin q ∧ 0 ≤ q ∧ q.den = 1

instance (n : JsNum) : Decidable (isFiniteNonNeg n) := by
  unfold isFiniteNonNeg
  cases n with
  | fin q =>
    by_cases h : 0 ≤ q
    · exact .isTrue ⟨q, rfl, h⟩
    · exact .isFalse (by rintro ⟨r, hr, hr0⟩; cases hr; exact h hr0)
  | nan => exact .isFalse (by rintro ⟨r, hr, _⟩; cases hr)
  | posInf => exact .isFalse (by rintro ⟨r, hr, _⟩; cases hr)
  | negInf => exact .isFalse (by rintro ⟨r, hr, _⟩; cases hr)

instance (n : JsNum) : Decidable (isNonNegInt n) := by
  unfold isNonNegInt
  cases n with
  | fin q =>
    by_cases h : 0 ≤ q ∧ q.den = 1
    · exact .isTrue ⟨q, rfl, h⟩
    · exact .isFalse (by rintro ⟨r, hr, hr0⟩; cases hr; exact h hr0)
  | nan => exact .isFalse (by rintro ⟨r, hr, _⟩; cases hr)
  | posInf => exact .isFalse (by rintro ⟨r, hr, _⟩; cases hr)
  | negInf => exact .isFalse (by rintro ⟨r, hr, _⟩; cases hr)

instance {ε α : Type} [DecidableEq ε] [DecidableEq α] : DecidableEq (Except ε α) := fun a b =>
  match a, b with
  | .ok x, .ok y =>
    match decEq x y with
    | .isTrue h => .isTrue (by rw [h])
    | .isFalse h => .isFalse (by intro hc; cases hc; exact h rfl)
  | .error x, .error y =>
    match decEq x y with
    | .isTrue h => .isTrue (by rw [h])
    | .isFalse h => .isFalse (by intro hc; cases hc; exact h rfl)
  | .ok _, .error _ => .isFalse (by intro hc; cases hc)
  | .error _, .ok _ => .isFalse (by intro hc; cases hc)

/-- An unspent output as the selector sees it: its identity and the
token amount (atomic units) it carries. -/
structure Utxo where
  outpoint : String
  tokenAmount : ℕ
deriving DecidableEq, Repr

/-- Total token amount of a candidate list. -/
def totalAmount (utxos : List Utxo) : ℕ :=
  (utxos.map Utxo.tokenAmount).sum

/-- Greedy accumulation: walk the candidates in order carrying the
running total `acc`; stop (taking nothing further) once `acc` has
reached the target; `none` when the list runs out short. -/
def selectEnoughAux (target : ℕ) (acc : ℕ) : List Utxo → Option (List Utxo)
  | [] => if target ≤ acc then some [] else none
  | u :: rest =>
    if target ≤ acc then some []
    else
      match selectEnoughAux target (acc + u.tokenAmount) rest with
      | some sel => some (u :: sel)
      | none => none

/-- Modelled from the spec (§4.3, missing `@mnee/ts-sdk`
`getEnoughUtxos`): greedy, order-respecting selection that stops as soon
as the running total reaches the target, and fails with
`InsufficientBalance` carrying the full candidate total when even the
whole list is short. -/
def selectEnough (candidates : List Utxo) (target : ℕ) : Except MneeError (List Utxo) :=
  match selectEnoughAux target 0 candidates with
  | some sel => .ok sel
  | none => .error (.insufficientBalance (totalAmount candidates))

/-- A token-classified transaction output: destination address, atomic
amount, and the cosigner public key found in its authorization wrapper. -/
structure TokenOutput where
  address : String
  atomicAmount : ℕ
  cosigner : String
deriving DecidableEq, Repr

/-- The part of a parsed transaction the validator inspects. -/
structure ParsedTx where
  txid : String
  tokenOutputs : List TokenOutput
deriving DecidableEq, Repr

/-- An entry of the expected-recipients list handed to deep validation
(the controller has already established the amount is a positive finite
number). -/
structure ExpectedRecipient where
  address : String
  amount : ℚ
deriving DecidableEq, Repr

/-- Modelled from the spec (§4.6, missing `@mnee/ts-sdk` deep
validation): every expected entry must appear among the token-classified
outputs with atomic amount `toAtomic(decimalAmount)`; extra outputs are
ignored. -/
def deepValidate (outputs : List TokenOutput) (expected : List ExpectedRecipient) : Bool :=
  expected.all fun e =>
    outputs.any fun o =>
      o.address == e.address && decide ((o.atomicAmount : ℤ) = toAtomicVal e.amount)

/-- Modelled from the spec (§4.6, missing `@mnee/ts-sdk`
`validateMneeTx` after decoding): basic validation checks every
token-classified output's cosigner key against the configured approver
key and fails with `InvalidCosigner` on a mismatch; deep validation then
returns the boolean result of `deepValidate` when an expected list was
supplied, and `true` otherwise. -/
def validateParsedTx (approverKey : String) (tx : ParsedTx)
    (expected : Option (List ExpectedRecipient)) : Except MneeError Bool :=
  if tx.tokenOutputs.all (fun o => o.cosigner == approverKey) then
    match expected with
    | none => .ok true
    | some exp => .ok (deepValidate tx.tokenOutputs exp)
  else
    .error .invalidCosigner

/-- Modelled from the spec (missing `@mnee/ts-sdk` `validateMneeTx`
entry point): decode the hex (rejecting malformed strings), then run
`validateParsedTx`.  The decoder itself is abstracted by `lookup`, which
yields the parsed transaction of any well-formed raw hex. -/
def sdkValidateMneeTx (approverKey : String) (lookup : String → ParsedTx)
    (rawTxHex : String) (expected : Option (List ExpectedRecipient)) : Except JsError Bool :=
  if wellFormedHex rawTxHex then
    (validateParsedTx approverKey (lookup rawTxHex) expected).mapError MneeError.toJsError
  else
    .error (MneeError.invalidInput "Invalid raw transaction hex").toJsError

/-- Modelled from the spec (missing `@mnee/ts-sdk` `parseTxFromRawTx`):
decode the hex (rejecting malformed strings) and return the parsed
transaction; decoding proper is abstracted by `lookup`. -/
def sdkParseTxFromRawTx (lookup : String → ParsedTx) (rawTxHex : String) :
    Except JsError ParsedTx :=
  if wellFormedHex rawTxHex then
    .ok (lookup rawTxHex)
  else
    .error (MneeError.invalidInput "Invalid raw transaction hex").toJsError

/-- A 200 success answer `res.json({ success: true, data })`. -/
def ok200 (payload : JsValue) : Response :=
  { status := 200, success := true, data := some payload, message := none, error := none }

/-- An inline rejection `res.status(400).json({ success: false, error })`
as the config controller writes it. -/
def inline400error (msg : String) : Response :=
  { status := 400, success := false, data := none, message := none, error := some msg }

/-- An inline rejection `res.status(400).json({ success: false, message })`
as the UTXO controller and the query-param middleware write it. -/
def inline400message (msg : String) : Response :=
  { status := 400, success := false, data := none, message := some msg, error := none }

/-- The check `!req.address || typeof req.address !== "string" ||
req.address.trim() === ''` (`src/controllers/configController.js`):
yields the address exactly when it is a string with non-blank content. -/
def addressOk : JsValue → Option String
  | .jstr s => if jsTrim s = "" then none else some s
  | _ => none

/-- The check `typeof req.amount !== "number" || req.amount <= 0 ||
!isFinite(req.amount)`: yields the amount exactly when it is a finite
strictly positive number. -/
def amountOk : JsValue → Option ℚ
  | .jnum (.fin q) => if 0 < q then some q else none
  | _ => none

/-- One iteration of the request-array loop of `validateMneeTx`
(`src/controllers/configController.js` lines 112-135). -/
def checkRequestItem (i : ℕ) (v : JsValue) : Except Response ExpectedRecipient :=
  if v.truthy && v.typeofObject then
    match addressOk (v.getField "address") with
    | some addr =>
      match amountOk (v.getField "amount") with
      | some q => .ok { address := addr, amount := q }
      | none => .error (inline400error ("Amount should be positive number at index " ++ toString i))
    | none => .error (inline400error ("Request address is required at index " ++ toString i))
  else
    .error (inline400error ("Invalid request item at index " ++ toString i))

/-- The whole request-array loop, indices from `i` upward; the first
failing item's 400 answer wins, as with the source's early `return`. -/
def checkRequestItems (i : ℕ) : List JsValue → Except Response (List ExpectedRecipient)
  | [] => .ok []
  | v :: rest =>
    match checkRequestItem i v with
    | .ok e =>
      match checkRequestItems (i + 1) rest with
      | .ok es => .ok (e :: es)
      | .error r => .error r
    | .error r => .error r

/-- The `catch` block of `validateMneeTx`: errors whose message is
`"Invalid cosigner detected"` get `statusCode = 400`, everything else
`500`, then the error middleware answers. -/
def validateCatch (e : JsError) : Response :=
  errorHandler { e with statusCode := if e.message = "Invalid cosigner detected" then some 400 else some 500 }

/-- Embeds `validateMneeTx` (`src/controllers/configController.js` lines
80-149): hex-presence and hex-format guards, request-array guards, then
the SDK call, with the catch block translating thrown errors. -/
def validateMneeTxController (approverKey : String) (lookup : String → ParsedTx)
    (rawTxHex request : JsValue) : Response :=
  match addressOk rawTxHex with
  | none => inline400error "Transaction Hex is required"
  | some s =>
    if !matchesHexRegex (jsTrim s) then
      inline400error "Invalid transaction hex format"
    else
      match request with
      | .undefined =>
        match sdkValidateMneeTx approverKey lookup s none with
        | .ok b => ok200 (.jobj [("isValid", .jbool b)])
        | .error e => validateCatch e
      | .jarr items =>
        if items.isEmpty then
          inline400error "Request array cannot be empty"
        else
          match checkRequestItems 0 items with
          | .error r => r
          | .ok es =>
            match sdkValidateMneeTx approverKey lookup s (some es) with
            | .ok b => ok200 (.jobj [("isValid", .jbool b)])
            | .error e => validateCatch e
      | _ => inline400error "Request must be an array"

/-- Rendering of a parsed transaction into the response payload (the
claims never inspect this shape, only its presence). -/
def encodeParsedTx (tx : ParsedTx) : JsValue :=
  .jobj [("txid", .jstr tx.txid)]

/-- Embeds `parseTxFromRaw` (`src/controllers/parseController.js` lines 18-28):
no input validation at all — the body's `rawTxHex` goes straight to the
SDK, and a thrown error reaches the error middleware with no
`statusCode` attached. -/
def parseTxFromRawController (lookup : String → ParsedTx) (rawTxHex : String) : Response :=
  match sdkParseTxFromRawTx lookup rawTxHex with
  | .ok tx => ok200 (encodeParsedTx tx)
  | .error e => errorHandler e

/-- Embeds the `toAtomicAmount` controller (`src/controllers/configController.js` lines
152-169): a non-number body is rejected inline with an `error` field;
an SDK throw reaches the error middleware with no `statusCode`. -/
def toAtomicAmountController (amount : JsValue) : Response :=
  match amount with
  | .jnum n =>
    match toAtomicAmount n with
    | .ok z => ok200 (.jobj [("atomicAmount", .jnum (.fin (z : ℚ)))])
    | .error e => errorHandler e.toJsError
  | _ => inline400error "Amount must be a number"

/-- Embeds the `fromAtomicAmount` controller (`src/controllers/configController.js` lines
172-189). -/
def fromAtomicAmountController (atomicAmount : JsValue) : Response :=
  match atomicAmount with
  | .jnum n =>
    match fromAtomicAmount n with
    | .ok q => ok200 (.jobj [("amount", .jnum (.fin q))])
    | .error e => errorHandler e.toJsError
  | _ => inline400error "Atomic amount must be a number"

/-- Search for `sub` at every suffix of the character list. -/
def includesAux (sub : List Char) : List Char → Bool
  | [] => sub.isPrefixOf ([] : List Char)
  | c :: cs => sub.isPrefixOf (c :: cs) || includesAux sub cs

/-- Computes `message.includes(sub)` for the catch blocks that inspect error
text (true when `sub` occurs somewhere in `s`). -/
def containsStr (s sub : String) : Bool :=
  includesAux sub.data s.data

/-- Embeds `getEnoughUtxos` (`src/controllers/utxoController.js` lines 28-49):
missing address or amount is rejected inline with a `message` field; a
thrown SDK error gets `statusCode = 400` only when its message mentions
an invalid address, else `500`.  The indexer's candidate list for the
address and the already-numeric target abstract the external UTXO
source and `Number(amount)`. -/
def getEnoughUtxosController (candidates : List Utxo) (address : Option String)
    (target : ℕ) : Response :=
  match address with
  | none => inline400message "Address and amount are required"
  | some a =>
    if a = "" then
      inline400message "Address and amount are required"
    else
      match selectEnough candidates target with
      | .ok sel => ok200 (.jarr (sel.map fun u => .jobj [("outpoint", .jstr u.outpoint)]))
      | .error e =>
        let je := e.toJsError
        errorHandler { je with statusCode := if containsStr je.message "Invalid Bitcoin address" then some 400 else some 500 }

/-- Embeds `src/middleware/validateQueryParams.js`: answer 400 naming the
offending keys when any query key is outside the allowed list, else
pass through (`none`). -/
def validateQueryParams (allowedParams : List String) (queryKeys : List String) : Option Response :=
  let invalidParams := queryKeys.filter fun key => !allowedParams.contains key
  if invalidParams.isEmpty then
    none
  else
    some (inline400message ("Invalid query parameter(s): " ++ String.intercalate ", " invalidParams ++
      ". Allowed parameters: " ++ String.intercalate ", " allowedParams ++ "."))

/-- A route guarded by the middleware: the middleware's answer when it
blocks, otherwise the underlying handler's. -/
def routeWithGuard (allowedParams : List String) (handler : List String → Response)
    (queryKeys : List String) : Response :=
  match validateQueryParams allowedParams queryKeys with
  | some r => r
  | none => handler queryKeys

/-- Allowed query keys of the paginated-UTXO route
(`src/routes/config.js` line 608). -/
def paginatedUtxoAllowed : List String := ["page", "size", "order"]

/-- Allowed query keys of the enough-UTXO route
(`src/routes/config.js` line 684). -/
def enoughUtxoAllowed : List String := ["amount"]

/-- Spec-side shape of a well-formed expected-recipient entry: an object
whose `address` is a non-empty string and whose `amount` is a finite
strictly positive number. -/
def goodEntryShape (v : JsValue) : Prop :=
  (∃ fields, v = .jobj fields) ∧
  (∃ s, v.getField "address" = .jstr s ∧ s ≠ "") ∧
  (∃ q : ℚ, v.getField "amount" = .jnum (.fin q) ∧ 0 < q)

/-- Spec-side disjunction of the rejection causes the claim lists: the
entry is not an object, or its address is missing or not a non-empty
string, or its amount is not a strictly positive finite number. -/
def claimBadEntry (v : JsValue) : Prop :=
  (¬ ∃ fields, v = .jobj fields) ∨
  (¬ ∃ s, v.getField "address" = .jstr s ∧ s ≠ "") ∨
  (¬ ∃ q : ℚ, v.getField "amount" = .jnum (.fin q) ∧ 0 < q)

/-- The two envelope shapes the claim allows: success with a data
payload, or failure with a `message` string (and nothing else). -/
def claimEnvelope (r : Response) : Prop :=
  (r.success = true ∧ r.data.isSome = true ∧ r.message = none ∧ r.error = none) ∨
  (r.success = false ∧ r.message.isSome = true ∧ r.data = none ∧ r.error = none)

/-- The envelope shape the code actually keeps: success with a data
payload, or failure with a describing string carried in `message` or in
`error`. -/
def envelopeShape (r : Response) : Prop :=
  (r.success = true ∧ r.data.isSome = true ∧ r.message = none ∧ r.error = none) ∨
  (r.success = false ∧ r.data = none ∧ (r.message.isSome = true ∨ r.error.isSome = true))

instance (o : Option JsValue) : Decidable (o = none) :=
  match o with
  | none => .isTrue rfl
  | some _ => .isFalse (fun hc => Option.noConfusion hc)

instance (r : Response) : Decidable (claimEnvelope r) := by
  unfold claimEnvelope
  infer_instance

instance {α : Type} (o : Option α) : Decidable (o = none) :=
  match o with
  | none => .isTrue rfl
  | some _ => .isFalse (fun hc => Option.noConfusion hc)

@[simp]
theorem totalAmount_nil : totalAmount [] = 0 := rfl

@[simp]
theorem totalAmount_cons (u : Utxo) (l : List Utxo) :
    totalAmount (u :: l) = u.tokenAmount + totalAmount l := by
  simp [totalAmount]

/-- The integer-division form of the rounding and the floor form agree:
`toAtomicVal q = ⌊q * 10^decimals + 1/2⌋`. -/
theorem toAtomicVal_eq_floor (q : ℚ) :
    toAtomicVal q = ⌊q * atomicFactor + 1/2⌋ := by
  have hd : ((q.den : ℚ)) ≠ 0 := by
    exact_mod_cast q.den_nz
  have hq : q * atomicFactor + 1/2 =
      ((2 * q.num * 100000 + (q.den : ℤ) : ℤ) : ℚ) / ((2 * q.den : ℕ) : ℚ) := by
    conv_lhs => rw [← Rat.num_div_den q]
    push_cast
    field_simp [atomicFactor]
    ring
  rw [hq, Rat.floor_intCast_div_natCast]
  show (2 * q.num * 100000 + (q.den : ℤ)).ediv (2 * (q.den : ℤ)) = _
  have hcast : ((2 * q.den : ℕ) : ℤ) = 2 * (q.den : ℤ) := by push_cast; ring
  rw [hcast]
  rfl

/-- C4: `toAtomic` fails with `InvalidAmount` on every input that is not
a finite non-negative number, `fromAtomic` fails with `InvalidAmount` on
every input that is not a non-negative integer, and on every valid input
`toAtomic` produces the atomic value nearest to `amount * 10^decimals`
(within half an atomic unit). -/
theorem claim_C4_amount_errors :
    (∀ n : JsNum, ¬ isFiniteNonNeg n → toAtomicAmount n = .error .invalidAmount) ∧
    (∀ n : JsNum, ¬ isNonNegInt n → fromAtomicAmount n = .error .invalidAmount) ∧
    (∀ q : ℚ, 0 ≤ q → toAtomicAmount (.fin q) = .ok (toAtomicVal q) ∧
      |((toAtomicVal q : ℚ)) - q * atomicFactor| ≤ 1/2) := by
  refine ⟨?_, ?_, ?_⟩
  · intro n hn
    cases n with
    | fin q =>
      have : ¬ 0 ≤ q := fun h0 => hn ⟨q, rfl, h0⟩
      simp [toAtomicAmount, this]
    | nan => rfl
    | posInf => rfl
    | negInf => rfl
  · intro n hn
    cases n with
    | fin q =>
      have : ¬ (0 ≤ q ∧ q.den = 1) := fun h0 => hn ⟨q, rfl, h0⟩
      simp [fromAtomicAmount, this]
    | nan => rfl
    | posInf => rfl
    | negInf => rfl
  · intro q hq
    refine ⟨by simp [toAtomicAmount, hq], ?_⟩
    rw [toAtomicVal_eq_floor]
    have h1 : (↑⌊q * atomicFactor + 1/2⌋ : ℚ) ≤ q * atomicFactor + 1/2 := Int.floor_le _
    have h2 : q * atomicFactor + 1/2 < ↑⌊q * atomicFactor + 1/2⌋ + 1 := Int.lt_floor_add_one _
    rw [abs_le]
    constructor <;> linarith

/-- C4 witness: `toAtomic(NaN)` and `fromAtomic(1/2)` fail with
`InvalidAmount`, and `toAtomic(2)` lands within half an atomic unit of
`2 * 10^decimals`. -/
theorem claim_C4_witness :
    toAtomicAmount .nan = .error .invalidAmount ∧
    fromAtomicAmount (.fin (mkRat 1 2)) = .error .invalidAmount ∧
    (toAtomicAmount (.fin 2) = .ok (toAtomicVal 2) ∧
      |((toAtomicVal 2 : ℚ)) - 2 * atomicFactor| ≤ 1/2) :=
  ⟨claim_C4_amount_errors.1 .nan (by decide),
   claim_C4_amount_errors.2.1 (.fin (mkRat 1 2)) (by decide),
   claim_C4_amount_errors.2.2 2 (by norm_num)⟩

/-- C5: round-trip — for every non-negative integer `a` in the atomic
range, `toAtomic (fromAtomic a) = a`. -/
theorem claim_C5_roundtrip (a : ℕ) (h : a ≤ 9007199254740991) :
    ∃ q : ℚ, fromAtomicAmount (.fin (a : ℚ)) = .ok q ∧
      toAtomicAmount (.fin q) = .ok ((a : ℤ)) := by
  refine ⟨(a : ℚ) / atomicFactor, ?_, ?_⟩
  · have hcond : (0:ℚ) ≤ (a : ℚ) ∧ ((a : ℚ)).den = 1 :=
      ⟨by positivity, Rat.den_natCast a⟩
    simp [fromAtomicAmount, hcond]
  · have hpos : (0:ℚ) ≤ (a : ℚ) / atomicFactor :=
      div_nonneg (by positivity) (by norm_num [atomicFactor])
    have hfac : ((a : ℚ) / atomicFactor) * atomicFactor = (a : ℚ) := by
      rw [div_mul_cancel₀]
      norm_num [atomicFactor]
    have hfloor : ⌊((a : ℚ)) + 1/2⌋ = (a : ℤ) := by
      rw [show ((a:ℚ) + 1/2 : ℚ) = 1/2 + ((a : ℤ) : ℚ) by push_cast; ring]
      rw [Int.floor_add_int]
      norm_num
    simp only [toAtomicAmount, hpos, if_true]
    rw [toAtomicVal_eq_floor, hfac, hfloor]

/-- C5 witness at `a = 3`. -/
theorem claim_C5_witness :
    3 ≤ 9007199254740991 ∧
    ∃ q : ℚ, fromAtomicAmount (.fin ((3:ℕ) : ℚ)) = .ok q ∧
      toAtomicAmount (.fin q) = .ok (((3:ℕ) : ℤ)) :=
  ⟨by norm_num, claim_C5_roundtrip 3 (by norm_num)⟩

/-- When the remaining candidates plus what is already accumulated cover
the target, the greedy walk succeeds, returns a prefix, and stops as
soon as the running total crosses the target. -/
theorem selectEnoughAux_covers (target : ℕ) (cands : List Utxo) :
    ∀ acc : ℕ, target ≤ acc + totalAmount cands →
      ∃ sel, selectEnoughAux target acc cands = some sel ∧
        List.IsPrefix sel cands ∧
        target ≤ acc + totalAmount sel ∧
        (sel = [] → target ≤ acc) ∧
        (sel ≠ [] → acc + totalAmount sel.dropLast < target) := by
  induction cands with
  | nil =>
    intro acc h
    simp only [totalAmount_nil, Nat.add_zero] at h
    exact ⟨[], by simp [selectEnoughAux, h], ⟨[], rfl⟩,
      by simpa using h, fun _ => h, fun hne => absurd rfl hne⟩
  | cons u rest ih =>
    intro acc h
    by_cases hacc : target ≤ acc
    · exact ⟨[], by simp [selectEnoughAux, hacc], ⟨u :: rest, rfl⟩,
        by simpa using hacc, fun _ => hacc, fun hne => absurd rfl hne⟩
    · have h' : target ≤ (acc + u.tokenAmount) + totalAmount rest := by
        simp only [totalAmount_cons] at h
        omega
      obtain ⟨sel, hfix, hpre, hsum, hnil, hlast⟩ := ih (acc + u.tokenAmount) h'
      refine ⟨u :: sel, ?_, ?_, ?_, by simp, ?_⟩
      · simp [selectEnoughAux, hacc, hfix]
      · obtain ⟨t, ht⟩ := hpre
        exact ⟨t, by simp [ht]⟩
      · simp only [totalAmount_cons]
        omega
      · intro _
        cases sel with
        | nil =>
          have := hnil rfl
          simpa using hacc
        | cons s ss =>
          have hdrop := hlast (by simp)
          show acc + totalAmount ((u :: s :: ss).dropLast) < target
          have : (u :: s :: ss).dropLast = u :: (s :: ss).dropLast := rfl
          rw [this, totalAmount_cons]
          omega

/-- When even the whole remainder cannot reach the target, the greedy
walk fails. -/
theorem selectEnoughAux_short (target : ℕ) (cands : List Utxo) :
    ∀ acc : ℕ, acc + totalAmount cands < target →
      selectEnoughAux target acc cands = none := by
  induction cands with
  | nil =>
    intro acc h
    simp only [totalAmount_nil, Nat.add_zero] at h
    simp [selectEnoughAux, Nat.not_le_of_lt h]
  | cons u rest ih =>
    intro acc h
    have hacc : ¬ target ≤ acc := by
      simp only [totalAmount_cons] at h
      omega
    have h' : (acc + u.tokenAmount) + totalAmount rest < target := by
      simp only [totalAmount_cons] at h
      omega
    simp [selectEnoughAux, hacc, ih (acc + u.tokenAmount) h']

/-- C6: whenever the candidates' total covers the target, `select`
returns a prefix of the candidates whose running sum first reaches or
exceeds the target: the selected prefix covers the target, and dropping
its last element falls strictly short. -/
theorem claim_C6_select_greedy_minimal (cands : List Utxo) (target : ℕ)
    (h : target ≤ totalAmount cands) :
    ∃ sel, selectEnough cands target = .ok sel ∧
      List.IsPrefix sel cands ∧
      target ≤ totalAmount sel ∧
      (sel ≠ [] → totalAmount sel.dropLast < target) := by
  obtain ⟨sel, hfix, hpre, hsum, _, hlast⟩ :=
    selectEnoughAux_covers target cands 0 (by simpa using h)
  refine ⟨sel, ?_, hpre, by simpa using hsum, fun hne => by simpa using hlast hne⟩
  simp [selectEnough, hfix]

/-- C6 witness: two candidates of amounts 3 and 4 against target 5. -/
theorem claim_C6_witness :
    5 ≤ totalAmount [⟨"a", 3⟩, ⟨"b", 4⟩] ∧
    ∃ sel, selectEnough [⟨"a", 3⟩, ⟨"b", 4⟩] 5 = .ok sel ∧
      List.IsPrefix sel [⟨"a", 3⟩, ⟨"b", 4⟩] ∧
      5 ≤ totalAmount sel ∧
      (sel ≠ [] → totalAmount sel.dropLast < 5) :=
  ⟨by decide, claim_C6_select_greedy_minimal [⟨"a", 3⟩, ⟨"b", 4⟩] 5 (by decide)⟩

/-- C7: when the candidates' total falls short of the target, `select`
fails with `InsufficientBalance` reporting the full candidate total as
the maximum coverable amount, and the wrapper turns that into a
success-false envelope whose message carries that total. -/
theorem claim_C7_insufficient_balance (cands : List Utxo) (target : ℕ)
    (h : totalAmount cands < target) :
    selectEnough cands target = .error (.insufficientBalance (totalAmount cands)) ∧
    ∀ address : String, address ≠ "" →
      (getEnoughUtxosController cands (some address) target).success = false ∧
      (getEnoughUtxosController cands (some address) target).message =
        some ("Insufficient MNEE balance. Max transfer amount: " ++ toString (totalAmount cands)) := by
  have hfix : selectEnoughAux target 0 cands = none :=
    selectEnoughAux_short target cands 0 (by simpa using h)
  have hsel : selectEnough cands target = .error (.insufficientBalance (totalAmount cands)) := by
    simp [selectEnough, hfix]
  refine ⟨hsel, ?_⟩
  intro address haddr
  have hmsg : ("Insufficient MNEE balance. Max transfer amount: " ++ toString (totalAmount cands)) ≠ "" := by
    intro hc
    have := congrArg String.length hc
    simp [String.length_append] at this
    exact absurd this.1 (by decide)
  simp [getEnoughUtxosController, haddr, hsel, errorHandler, MneeError.toJsError, hmsg]

/-- C7 witness: candidates of total 7 against target 10, with a
non-empty address. -/
theorem claim_C7_witness :
    totalAmount [⟨"a", 3⟩, ⟨"b", 4⟩] < 10 ∧
    selectEnough [⟨"a", 3⟩, ⟨"b", 4⟩] 10 =
      .error (.insufficientBalance (totalAmount [⟨"a", 3⟩, ⟨"b", 4⟩])) ∧
    (getEnoughUtxosController [⟨"a", 3⟩, ⟨"b", 4⟩] (some "addr") 10).success = false ∧
    (getEnoughUtxosController [⟨"a", 3⟩, ⟨"b", 4⟩] (some "addr") 10).message =
      some ("Insufficient MNEE balance. Max transfer amount: " ++ toString (totalAmount [⟨"a", 3⟩, ⟨"b", 4⟩])) := by
  have hmain := claim_C7_insufficient_balance [⟨"a", 3⟩, ⟨"b", 4⟩] 10 (by decide)
  exact ⟨by decide, hmain.1, (hmain.2 "addr" (by decide)).1, (hmain.2 "addr" (by decide)).2⟩

/-- C3: with a well-formed transaction whose token outputs all carry the
approver key, deep validation returns a boolean (never an error): `true`
exactly when every expected entry appears among the token-classified
outputs with atomic amount `toAtomic(decimalAmount)`; and extra outputs
beyond the expected list never turn a passing validation into a failing
one. -/
theorem claim_C3_deep_validation (approverKey : String) (tx : ParsedTx)
    (exp : List ExpectedRecipient)
    (hcos : tx.tokenOutputs.all (fun o => o.cosigner == approverKey) = true)
    (hpos : ∀ e ∈ exp, 0 < e.amount) :
    validateParsedTx approverKey tx (some exp) = .ok (deepValidate tx.tokenOutputs exp) ∧
    (deepValidate tx.tokenOutputs exp = true ↔
      ∀ e ∈ exp, ∃ o ∈ tx.tokenOutputs, o.address = e.address ∧
        toAtomicAmount (.fin e.amount) = .ok ((o.atomicAmount : ℤ))) ∧
    (deepValidate tx.tokenOutputs exp = true →
      ∀ extra, deepValidate (tx.tokenOutputs ++ extra) exp = true) := by
  have hiff : ∀ e ∈ exp, ∀ o : TokenOutput,
      ((o.address == e.address && decide ((o.atomicAmount : ℤ) = toAtomicVal e.amount)) = true) ↔
      (o.address = e.address ∧ toAtomicAmount (.fin e.amount) = .ok ((o.atomicAmount : ℤ))) := by
    intro e he o
    have h0 : (0:ℚ) ≤ e.amount := le_of_lt (hpos e he)
    have hta : toAtomicAmount (.fin e.amount) = .ok (toAtomicVal e.amount) := by
      simp [toAtomicAmount, h0]
    rw [hta]
    simp only [Bool.and_eq_true, beq_iff_eq, decide_eq_true_eq, Except.ok.injEq]
    exact and_congr_right fun _ => eq_comm
  refine ⟨by simp [validateParsedTx, hcos], ?_, ?_⟩
  · simp only [deepValidate, List.all_eq_true, List.any_eq_true]
    constructor
    · intro hall e he
      obtain ⟨o, ho, hcond⟩ := hall e he
      exact ⟨o, ho, (hiff e he o).mp hcond⟩
    · intro hall e he
      obtain ⟨o, ho, hcond⟩ := hall e he
      exact ⟨o, ho, (hiff e he o).mpr hcond⟩
  · intro hall extra
    simp only [deepValidate, List.all_eq_true, List.any_eq_true] at hall ⊢
    intro e he
    obtain ⟨o, ho, hcond⟩ := hall e he
    exact ⟨o, List.mem_append_left _ ho, hcond⟩

/-- C3 witness: the spec's example — one token output of 39900 atomic
units to X under the approver key validates against an expected amount
of 0.399 and fails against 0.400. -/
theorem claim_C3_witness :
    (validateParsedTx "APPROVER" ⟨"t", [⟨"X", 39900, "APPROVER"⟩]⟩
        (some [⟨"X", mkRat 399 1000⟩]) =
      .ok (deepValidate [⟨"X", 39900, "APPROVER"⟩] [⟨"X", mkRat 399 1000⟩])) ∧
    deepValidate [⟨"X", 39900, "APPROVER"⟩] [⟨"X", mkRat 399 1000⟩] = true ∧
    deepValidate [⟨"X", 39900, "APPROVER"⟩] [⟨"X", mkRat 400 1000⟩] = false :=
  ⟨(claim_C3_deep_validation "APPROVER" ⟨"t", [⟨"X", 39900, "APPROVER"⟩]⟩
      [⟨"X", mkRat 399 1000⟩] (by decide) (by decide)).1,
   by decide, by decide⟩

theorem addressOk_some (w : JsValue) (a : String) (h : addressOk w = some a) :
    ∃ s, w = .jstr s ∧ s ≠ "" := by
  cases w <;> simp [addressOk] at h
  case jstr s =>
    refine ⟨s, rfl, ?_⟩
    intro hc
    subst hc
    exact h.1 rfl

theorem amountOk_some (w : JsValue) (q : ℚ) (h : amountOk w = some q) :
    w = .jnum (.fin q) ∧ 0 < q := by
  cases w <;> simp [amountOk] at h
  case jnum n =>
    cases n <;> simp [amountOk] at h
    case fin r =>
      obtain ⟨hr, hrq⟩ := h
      subst hrq
      exact ⟨rfl, hr⟩

theorem checkRequestItem_error_shape (i : ℕ) (v : JsValue) (r : Response)
    (h : checkRequestItem i v = .error r) : ∃ msg, r = inline400error msg := by
  unfold checkRequestItem at h
  split at h
  · split at h
    · split at h
      · simp at h
      · injection h with h1; exact ⟨_, h1.symm⟩
    · injection h with h1; exact ⟨_, h1.symm⟩
  · injection h with h1; exact ⟨_, h1.symm⟩

theorem checkRequestItem_ok_good (i : ℕ) (v : JsValue) (e : ExpectedRecipient)
    (h : checkRequestItem i v = .ok e) : goodEntryShape v := by
  unfold checkRequestItem at h
  split at h
  case isTrue htv =>
    split at h
    case h_1 addr haddr =>
      split at h
      case h_1 q hq =>
        obtain ⟨s, hs, hse⟩ := addressOk_some _ _ haddr
        obtain ⟨hnum, hqpos⟩ := amountOk_some _ _ hq
        refine ⟨?_, ⟨s, hs, hse⟩, ⟨q, hnum, hqpos⟩⟩
        cases v with
        | jobj fields => exact ⟨fields, rfl⟩
        | jarr xs => simp [JsValue.getField] at hs
        | undefined => simp [JsValue.truthy] at htv
        | jnull => simp [JsValue.truthy] at htv
        | jbool b => simp [JsValue.typeofObject] at htv
        | jnum n => simp [JsValue.typeofObject] at htv
        | jstr s2 => simp [JsValue.typeofObject] at htv
      case h_2 => simp at h
    case h_2 => simp at h
  case isFalse => simp at h

theorem claimBadEntry_not_good (v : JsValue) (h : claimBadEntry v) :
    ¬ goodEntryShape v := by
  rintro ⟨h1, h2, h3⟩
  rcases h with hb | hb | hb <;> exact hb (by assumption)

theorem checkRequestItems_bad (items : List JsValue) :
    ∀ i : ℕ, (∃ v ∈ items, claimBadEntry v) →
      ∃ msg, checkRequestItems i items = .error (inline400error msg) := by
  induction items with
  | nil =>
    intro i h
    obtain ⟨v, hv, _⟩ := h
    cases hv
  | cons v rest ih =>
    intro i h
    cases hcheck : checkRequestItem i v with
    | error r =>
      obtain ⟨msg, hmsg⟩ := checkRequestItem_error_shape i v r hcheck
      subst hmsg
      exact ⟨msg, by simp [checkRequestItems, hcheck]⟩
    | ok e =>
      have hgood := checkRequestItem_ok_good i v e hcheck
      obtain ⟨w, hw, hbad⟩ := h
      rcases List.mem_cons.mp hw with rfl | hwrest
      · exact absurd hgood (claimBadEntry_not_good _ hbad)
      · obtain ⟨msg, hmsg⟩ := ih (i + 1) ⟨w, hwrest, hbad⟩
        exact ⟨msg, by simp [checkRequestItems, hcheck, hmsg]⟩

/-- C9: a validate request whose expected-recipients array is empty or
contains an entry that is not an object, has a missing/empty-string
address, or has an amount that is not a strictly positive finite number
(in particular 0 or negative) is rejected with a 400, carries no
`isValid` payload, and never reaches the engine (the answer is the same
under any decode behaviour). -/
theorem claim_C9_request_guard (approverKey : String) (lookup lookup2 : String → ParsedTx)
    (rawTxHex : JsValue) (items : List JsValue)
    (hbad : items = [] ∨ ∃ v ∈ items, claimBadEntry v) :
    (validateMneeTxController approverKey lookup rawTxHex (.jarr items)).status = 400 ∧
    (validateMneeTxController approverKey lookup rawTxHex (.jarr items)).success = false ∧
    (validateMneeTxController approverKey lookup rawTxHex (.jarr items)).data = none ∧
    validateMneeTxController approverKey lookup rawTxHex (.jarr items) =
      validateMneeTxController approverKey lookup2 rawTxHex (.jarr items) := by
  rcases hbad with rfl | hex
  · cases haddr : addressOk rawTxHex with
    | none => simp [validateMneeTxController, haddr, inline400error]
    | some s =>
      cases hre : matchesHexRegex (jsTrim s) with
      | false => simp [validateMneeTxController, haddr, hre, inline400error]
      | true => simp [validateMneeTxController, haddr, hre, inline400error]
  · have hne : items.isEmpty = false := by
      obtain ⟨v, hv, _⟩ := hex
      cases items
      · cases hv
      · rfl
    obtain ⟨msg, hmsg⟩ := checkRequestItems_bad items 0 hex
    cases haddr : addressOk rawTxHex with
    | none => simp [validateMneeTxController, haddr, inline400error]
    | some s =>
      cases hre : matchesHexRegex (jsTrim s) with
      | false => simp [validateMneeTxController, haddr, hre, inline400error]
      | true => simp [validateMneeTxController, haddr, hre, hne, hmsg, inline400error]

/-- C9 witness: an entry with address `"X"` and amount `0` is rejected
with a 400 and no payload, identically under two different decoders. -/
theorem claim_C9_witness :
    (validateMneeTxController "A" (fun _ => ⟨"t", []⟩) (.jstr "ab")
        (.jarr [.jobj [("address", .jstr "X"), ("amount", .jnum (.fin 0))]])).status = 400 ∧
    (validateMneeTxController "A" (fun _ => ⟨"t", []⟩) (.jstr "ab")
        (.jarr [.jobj [("address", .jstr "X"), ("amount", .jnum (.fin 0))]])).success = false ∧
    (validateMneeTxController "A" (fun _ => ⟨"t", []⟩) (.jstr "ab")
        (.jarr [.jobj [("address", .jstr "X"), ("amount", .jnum (.fin 0))]])).data = none ∧
    validateMneeTxController "A" (fun _ => ⟨"t", []⟩) (.jstr "ab")
        (.jarr [.jobj [("address", .jstr "X"), ("amount", .jnum (.fin 0))]]) =
      validateMneeTxController "A" (fun _ => ⟨"u", [⟨"Y", 1, "k"⟩]⟩) (.jstr "ab")
        (.jarr [.jobj [("address", .jstr "X"), ("amount", .jnum (.fin 0))]]) :=
  claim_C9_request_guard "A" (fun _ => ⟨"t", []⟩) (fun _ => ⟨"u", [⟨"Y", 1, "k"⟩]⟩)
    (.jstr "ab") [.jobj [("address", .jstr "X"), ("amount", .jnum (.fin 0))]]
    (Or.inr ⟨_, List.mem_singleton.mpr rfl, Or.inr (Or.inr (by
      rintro ⟨q, hq, h0⟩
      have hq2 : JsValue.jnum (.fin 0) = JsValue.jnum (.fin q) := hq
      injection hq2 with h1
      injection h1 with h2
      rw [← h2] at h0
      exact absurd h0 (by norm_num)))⟩)

theorem validateQueryParams_pass (allowed qk : List String)
    (h : ∀ k ∈ qk, k ∈ allowed) : validateQueryParams allowed qk = none := by
  have hfil : qk.filter (fun key => !allowed.contains key) = [] := by
    rw [List.filter_eq_nil_iff]
    intro a ha
    simp [h a ha]
  simp only [validateQueryParams, hfil, List.isEmpty_nil, if_true]

theorem validateQueryParams_blocks (allowed qk : List String)
    (h : ∃ k ∈ qk, k ∉ allowed) :
    ∃ msg, validateQueryParams allowed qk = some (inline400message msg) := by
  obtain ⟨k, hk, hkn⟩ := h
  have hmem : k ∈ qk.filter (fun key => !allowed.contains key) :=
    List.mem_filter.mpr ⟨hk, by simp [hkn]⟩
  have hne : (qk.filter (fun key => !allowed.contains key)).isEmpty = false := by
    cases hfil : qk.filter (fun key => !allowed.contains key) with
    | nil => rw [hfil] at hmem; cases hmem
    | cons a l => rfl
  refine ⟨"Invalid query parameter(s): " ++
      String.intercalate ", " (qk.filter (fun key => !allowed.contains key)) ++
      ". Allowed parameters: " ++ String.intercalate ", " allowed ++ ".", ?_⟩
  simp only [validateQueryParams, hne, Bool.false_eq_true, if_false]

/-- C10: a route guarded by the query-parameter whitelist middleware
(the paginated-UTXO route with `paginatedUtxoAllowed`, the enough-UTXO
route with `enoughUtxoAllowed`) answers 400 without ever invoking the
underlying handler whenever some query key is outside the allowed list,
and passes the request through to the handler unchanged when every key
is allowed. -/
theorem claim_C10_query_whitelist (allowed qk : List String)
    (handler handler2 : List String → Response) :
    ((∃ k ∈ qk, k ∉ allowed) →
      (routeWithGuard allowed handler qk).status = 400 ∧
      (routeWithGuard allowed handler qk).success = false ∧
      routeWithGuard allowed handler qk = routeWithGuard allowed handler2 qk) ∧
    ((∀ k ∈ qk, k ∈ allowed) →
      routeWithGuard allowed handler qk = handler qk) := by
  constructor
  · intro h
    obtain ⟨msg, hmsg⟩ := validateQueryParams_blocks allowed qk h
    simp [routeWithGuard, hmsg, inline400message]
  · intro h
    simp [routeWithGuard, validateQueryParams_pass allowed qk h]

/-- C10 witness: a stray `foo` key on the paginated route is blocked
the same way under two different handlers, and an `amount`-only query
reaches the enough-route handler unchanged. -/
theorem claim_C10_witness :
    ((routeWithGuard paginatedUtxoAllowed (fun _ => ok200 (.jarr [])) ["page", "foo"]).status = 400 ∧
      (routeWithGuard paginatedUtxoAllowed (fun _ => ok200 (.jarr [])) ["page", "foo"]).success = false ∧
      routeWithGuard paginatedUtxoAllowed (fun _ => ok200 (.jarr [])) ["page", "foo"] =
        routeWithGuard paginatedUtxoAllowed (fun _ => ok200 (.jobj [])) ["page", "foo"]) ∧
    routeWithGuard enoughUtxoAllowed (fun _ => ok200 (.jarr [])) ["amount"] =
      (fun _ => ok200 (.jarr [])) ["amount"] :=
  ⟨(claim_C10_query_whitelist paginatedUtxoAllowed ["page", "foo"]
      (fun _ => ok200 (.jarr [])) (fun _ => ok200 (.jobj []))).1 (by decide),
   (claim_C10_query_whitelist enoughUtxoAllowed ["amount"]
      (fun _ => ok200 (.jarr [])) (fun _ => ok200 (.jobj []))).2 (by decide)⟩

/-- C1 counterexample: `"abc"` is odd-length all-hex; it passes the
`^[0-9a-fA-F]+$` check and reaches decoding, whose failure surfaces as a
500 internal error — not a client-error rejection before decoding. -/
theorem claim_C1_counterexample :
    matchesHexRegex "abc" = true ∧
    (validateMneeTxController "A" (fun _ => ⟨"t", []⟩) (.jstr "abc") .undefined).status = 500 := by
  decide

/-- C1 amended: the validate operation checks `rawTxHex` against
`^[0-9a-fA-F]+$` before decoding and rejects non-matching (non-hex or
blank) strings with a 400 without invoking the engine; odd-length
all-hex strings pass that check and reach decoding, whose failure
surfaces as a 500; the parse operation performs no hex pre-validation,
so its malformed inputs also surface as 500 internal errors. -/
theorem claim_C1_amended (approverKey : String) (lookup lookup2 : String → ParsedTx)
    (s : String) :
    (matchesHexRegex (jsTrim s) = false →
      (validateMneeTxController approverKey lookup (.jstr s) .undefined).status = 400 ∧
      (validateMneeTxController approverKey lookup (.jstr s) .undefined).data = none ∧
      validateMneeTxController approverKey lookup (.jstr s) .undefined =
        validateMneeTxController approverKey lookup2 (.jstr s) .undefined) ∧
    (matchesHexRegex (jsTrim s) = true → jsTrim s = s → wellFormedHex s = false →
      (validateMneeTxController approverKey lookup (.jstr s) .undefined).status = 500) ∧
    (wellFormedHex s = false →
      (parseTxFromRawController lookup s).status = 500 ∧
      (parseTxFromRawController lookup s).success = false) := by
  refine ⟨?_, ?_, ?_⟩
  · intro hre
    by_cases hts : jsTrim s = ""
    · have haddr : addressOk (.jstr s) = none := by simp [addressOk, hts]
      simp [validateMneeTxController, haddr, inline400error]
    · have haddr : addressOk (.jstr s) = some s := by simp [addressOk, hts]
      simp [validateMneeTxController, haddr, hre, inline400error]
  · intro hre htrim hwf
    have hts : jsTrim s ≠ "" := by
      intro hc
      rw [hc] at hre
      simp [matchesHexRegex] at hre
    have haddr : addressOk (.jstr s) = some s := by simp [addressOk, hts]
    rw [htrim] at hre
    simp [validateMneeTxController, haddr, htrim, hre, sdkValidateMneeTx, hwf,
      validateCatch, errorHandler, MneeError.toJsError]
  · intro hwf
    constructor <;>
      simp [parseTxFromRawController, sdkParseTxFromRawTx, hwf, errorHandler,
        MneeError.toJsError]

/-- C1 amended witness: `"zz11"` is rejected by validate's check with a
400 identically under two decoders; `"abc"` (odd-length hex) yields a
500 from validate; `"zz11"` yields a 500 from parse. -/
theorem claim_C1_witness :
    ((validateMneeTxController "A" (fun _ => ⟨"t", []⟩) (.jstr "zz11") .undefined).status = 400 ∧
      (validateMneeTxController "A" (fun _ => ⟨"t", []⟩) (.jstr "zz11") .undefined).data = none ∧
      validateMneeTxController "A" (fun _ => ⟨"t", []⟩) (.jstr "zz11") .undefined =
        validateMneeTxController "A" (fun _ => ⟨"u", [⟨"Y", 1, "k"⟩]⟩) (.jstr "zz11") .undefined) ∧
    (validateMneeTxController "A" (fun _ => ⟨"t", []⟩) (.jstr "abc") .undefined).status = 500 ∧
    ((parseTxFromRawController (fun _ => ⟨"t", []⟩) "zz11").status = 500 ∧
      (parseTxFromRawController (fun _ => ⟨"t", []⟩) "zz11").success = false) :=
  ⟨(claim_C1_amended "A" (fun _ => ⟨"t", []⟩) (fun _ => ⟨"u", [⟨"Y", 1, "k"⟩]⟩) "zz11").1
      (by decide),
   (claim_C1_amended "A" (fun _ => ⟨"t", []⟩) (fun _ => ⟨"t", []⟩) "abc").2.1
      (by decide) (by decide) (by decide),
   (claim_C1_amended "A" (fun _ => ⟨"t", []⟩) (fun _ => ⟨"t", []⟩) "zz11").2.2 (by decide)⟩

/-- C2 counterexample: `parse("zz11")` answers with status 500 — the
generic internal error the claim says can never happen for malformed
input. -/
theorem claim_C2_counterexample :
    (parseTxFromRawController (fun _ => ⟨"t", []⟩) "zz11").status = 500 ∧
    (parseTxFromRawController (fun _ => ⟨"t", []⟩) "zz11").message =
      some "Invalid raw transaction hex" := by
  decide

/-- C2 amended: `validate("not-hex")` fails with a 400 invalid-input
client error carrying the hex-format message, while `parse("zz11")`
fails with a generic 500 internal error, because the parse controller
neither pre-validates its input nor maps decode failures to a client
status. -/
theorem claim_C2_amended (approverKey : String) (lookup : String → ParsedTx) :
    (validateMneeTxController approverKey lookup (.jstr "not-hex") .undefined).status = 400 ∧
    (validateMneeTxController approverKey lookup (.jstr "not-hex") .undefined).error =
      some "Invalid transaction hex format" ∧
    (validateMneeTxController approverKey lookup (.jstr "not-hex") .undefined).success = false ∧
    (parseTxFromRawController lookup "zz11").status = 500 ∧
    (parseTxFromRawController lookup "zz11").success = false := by
  have haddr : addressOk (.jstr "not-hex") = some "not-hex" := by decide
  have hre : matchesHexRegex (jsTrim "not-hex") = false := by decide
  have hwf : wellFormedHex "zz11" = false := by decide
  refine ⟨?_, ?_, ?_, ?_, ?_⟩ <;>
    simp [validateMneeTxController, haddr, hre, inline400error, parseTxFromRawController,
      sdkParseTxFromRawTx, hwf, errorHandler, MneeError.toJsError]

theorem envelopeShape_ok200 (p : JsValue) : envelopeShape (ok200 p) :=
  Or.inl ⟨rfl, rfl, rfl, rfl⟩

theorem envelopeShape_inline400error (m : String) : envelopeShape (inline400error m) :=
  Or.inr ⟨rfl, rfl, Or.inr rfl⟩

theorem envelopeShape_inline400message (m : String) : envelopeShape (inline400message m) :=
  Or.inr ⟨rfl, rfl, Or.inl rfl⟩

theorem envelopeShape_errorHandler (e : JsError) : envelopeShape (errorHandler e) :=
  Or.inr ⟨rfl, rfl, Or.inl rfl⟩

theorem checkRequestItems_error_shape (items : List JsValue) :
    ∀ i r, checkRequestItems i items = .error r → ∃ msg, r = inline400error msg := by
  induction items with
  | nil =>
    intro i r h
    simp [checkRequestItems] at h
  | cons v rest ih =>
    intro i r h
    unfold checkRequestItems at h
    cases hcheck : checkRequestItem i v with
    | ok e =>
      rw [hcheck] at h
      cases hrest : checkRequestItems (i + 1) rest with
      | ok es => rw [hrest] at h; simp at h
      | error r2 =>
        rw [hrest] at h
        simp at h
        subst h
        exact ih (i + 1) r2 hrest
    | error r2 =>
      rw [hcheck] at h
      simp at h
      subst h
      exact checkRequestItem_error_shape i v r2 hcheck

theorem envelopeShape_validateMneeTxController (approverKey : String)
    (lookup : String → ParsedTx) (raw req : JsValue) :
    envelopeShape (validateMneeTxController approverKey lookup raw req) := by
  unfold validateMneeTxController
  split
  · exact envelopeShape_inline400error _
  · split
    · exact envelopeShape_inline400error _
    · split
      · split
        · exact envelopeShape_ok200 _
        · exact envelopeShape_errorHandler _
      · split
        · exact envelopeShape_inline400error _
        · split
          next r hr =>
            obtain ⟨msg, hmsg⟩ := checkRequestItems_error_shape _ 0 r hr
            subst hmsg
            exact envelopeShape_inline400error _
          next es hes =>
            split
            · exact envelopeShape_ok200 _
            · exact envelopeShape_errorHandler _
      · exact envelopeShape_inline400error _

/-- C8 counterexample: the inline rejection of a non-numeric amount has
`success: false` but no `message` field (its text sits in `error`), so
it fits neither of the claim's two envelope shapes. -/
theorem claim_C8_counterexample :
    ¬ claimEnvelope (toAtomicAmountController (.jstr "x")) := by
  decide

/-- C8 amended: every embedded operation answers with a boolean flag and
either a data payload (success) or a describing string (failure) — but
the failure string lives in `message` for the error middleware, the
UTXO controller and the query whitelist, and in `error` for the config
controller's inline 400 rejections. -/
theorem claim_C8_amended (approverKey : String) (lookup : String → ParsedTx)
    (raw req amt : JsValue) (s : String) (cands : List Utxo) (addr : Option String)
    (t : ℕ) (allowed qk : List String) (e : JsError) :
    envelopeShape (validateMneeTxController approverKey lookup raw req) ∧
    envelopeShape (parseTxFromRawController lookup s) ∧
    envelopeShape (toAtomicAmountController amt) ∧
    envelopeShape (fromAtomicAmountController amt) ∧
    envelopeShape (getEnoughUtxosController cands addr t) ∧
    envelopeShape (errorHandler e) ∧
    (∀ r, validateQueryParams allowed qk = some r → envelopeShape r) := by
  refine ⟨envelopeShape_validateMneeTxController approverKey lookup raw req, ?_, ?_, ?_, ?_,
    envelopeShape_errorHandler e, ?_⟩
  · unfold parseTxFromRawController
    split
    · exact envelopeShape_ok200 _
    · exact envelopeShape_errorHandler _
  · unfold toAtomicAmountController
    split
    · split
      · exact envelopeShape_ok200 _
      · exact envelopeShape_errorHandler _
    · exact envelopeShape_inline400error _
  · unfold fromAtomicAmountController
    split
    · split
      · exact envelopeShape_ok200 _
      · exact envelopeShape_errorHandler _
    · exact envelopeShape_inline400error _
  · unfold getEnoughUtxosController
    split
    · exact envelopeShape_inline400message _
    · split
      · exact envelopeShape_inline400message _
      · split
        · exact envelopeShape_ok200 _
        · exact envelopeShape_errorHandler _
  · intro r hr
    obtain ⟨k, hk, hkn⟩ : ∃ k ∈ qk, k ∉ allowed := by
      by_contra hall
      push_neg at hall
      rw [validateQueryParams_pass allowed qk hall] at hr
      cases hr
    obtain ⟨msg, hmsg⟩ := validateQueryParams_blocks allowed qk ⟨k, hk, hkn⟩
    rw [hmsg] at hr
    cases hr
    exact envelopeShape_inline400message _

/-- C8 amended witness: the concrete blocked-query response of the
enough-UTXO whitelist fits the amended envelope shape. -/
theorem claim_C8_witness :
    envelopeShape (inline400message
      "Invalid query parameter(s): foo. Allowed parameters: amount.") :=
  (claim_C8_amended "A" (fun _ => ⟨"t", []⟩) (.jstr "x") .undefined (.jnum .nan) "zz" [] none 0
      enoughUtxoAllowed ["foo"] ⟨"m", none⟩).2.2.2.2.2.2
    (inline400message "Invalid query parameter(s): foo. Allowed parameters: amount.") rfl

end Mnee
